import Mathlib

/-!
Verification of the screening and scoring engine of the
Tomorrow's Movers Screener repository (`src/screener.py`,
class `TomorrowsMoversScreener`).

The engine is pure arithmetic over tabular rows; we embed a DataFrame as a
`List` of row structures with rational number fields (the Python code uses
floats only for comparisons, products, absolute value and rounding to two
decimal places, all of which we model exactly over `ℚ` with Python's
round-half-to-even rounding).
-/

/-- One row of the input snapshot table (the columns produced by the
data provider and read by `TomorrowsMoversScreener`). -/
structure SymbolSnapshot where
  symbol : String
  current_price : ℚ
  price_change_1d : ℚ
  price_change_7d : ℚ
  volume_24h : ℚ
  avg_volume_7d : ℚ
  volume_ratio : ℚ
deriving DecidableEq

/-- A row after the scoring stage: the original snapshot extended with the
`trend_consistency` and `momentum_score` columns added by
`_calculate_momentum_score`. -/
structure ScoredCandidate where
  base : SymbolSnapshot
  trend_consistency : ℚ
  momentum_score : ℚ
deriving DecidableEq

/-- Round a rational to the nearest integer, ties to even: the rounding used
by Python's built-in `round` and by numpy/pandas `.round`. -/
def roundHalfEven (x : ℚ) : ℤ :=
  let f : ℤ := ⌊x⌋
  let frac : ℚ := x - f
  if frac < 1/2 then f
  else if 1/2 < frac then f + 1
  else if f % 2 = 0 then f else f + 1

/-- Embedding of `round(x, 2)`: round to two decimal places, ties to even. -/
def round2 (x : ℚ) : ℚ := (roundHalfEven (x * 100) : ℚ) / 100

/-- Embedding of `TomorrowsMoversScreener._apply_filters`: two successive boolean-mask
selections, keeping rows with `volume_ratio >= min_volume_ratio` and then
rows with `min_price_change_1d <= price_change_1d <= max_price_change_1d`. -/
def apply_filters (df : List SymbolSnapshot)
    (min_volume_ratio min_price_change_1d max_price_change_1d : ℚ) :
    List SymbolSnapshot :=
  let df1 := df.filter (fun r => min_volume_ratio ≤ r.volume_ratio)
  df1.filter (fun r =>
    decide (min_price_change_1d ≤ r.price_change_1d) &&
    decide (r.price_change_1d ≤ max_price_change_1d))

/-- The `trend_consistency` column of `_calculate_momentum_score`:
base value 1.0, overwritten with 1.5 on rows where
`price_change_1d * price_change_7d > 0`. -/
def trendConsistency (r : SymbolSnapshot) : ℚ :=
  if 0 < r.price_change_1d * r.price_change_7d then 3/2 else 1

/-- The `momentum_score` column of `_calculate_momentum_score`:
`(volume_ratio * abs(price_change_1d) * trend_consistency).round(2)`. -/
def momentumScore (r : SymbolSnapshot) : ℚ :=
  round2 (r.volume_ratio * |r.price_change_1d| * trendConsistency r)

/-- One row of the scoring stage's output: the snapshot with its two derived
columns attached. -/
def scoreRow (r : SymbolSnapshot) : ScoredCandidate :=
  ⟨r, trendConsistency r, momentumScore r⟩

/-- Descending comparison on `momentum_score`, the key of
`df.sort_values('momentum_score', ascending=False)`. -/
def scoreDescLe (a b : ScoredCandidate) : Bool :=
  decide (b.momentum_score ≤ a.momentum_score)

/-- Embedding of `TomorrowsMoversScreener._calculate_momentum_score`: return the input
unchanged when it is empty, otherwise attach the `trend_consistency` and
`momentum_score` columns to every row and sort by `momentum_score`
descending. -/
def calculate_momentum_score (df : List SymbolSnapshot) : List ScoredCandidate :=
  if df.length = 0 then []
  else (df.map scoreRow).mergeSort scoreDescLe

/-- The record returned by `TomorrowsMoversScreener.get_screening_summary`. -/
structure ScreeningSummary where
  total_found : ℕ
  avg_volume_ratio : ℚ
  avg_momentum_score : ℚ
  top_categories : List String
deriving DecidableEq

/-- The f-string `f"Bullish Momentum: {len(bullish)} assets"`. -/
def bullishLine (n : ℕ) : String :=
  "Bullish Momentum: " ++ toString n ++ " assets"

/-- The f-string `f"Bearish Momentum: {len(bearish)} assets"`. -/
def bearishLine (n : ℕ) : String :=
  "Bearish Momentum: " ++ toString n ++ " assets"

/-- Embedding of `TomorrowsMoversScreener.get_screening_summary`: the zero summary on an
empty table, otherwise the count, the two rounded column means, and the
bullish/bearish category lines for the nonempty sign buckets. -/
def get_screening_summary (df : List ScoredCandidate) : ScreeningSummary :=
  if df.length = 0 then
    { total_found := 0, avg_volume_ratio := 0, avg_momentum_score := 0,
      top_categories := [] }
  else
    let bullish := df.filter (fun r => decide (0 < r.base.price_change_1d))
    let bearish := df.filter (fun r => decide (r.base.price_change_1d < 0))
    let categories :=
      (if bullish.length > 0 then [bullishLine bullish.length] else []) ++
      (if bearish.length > 0 then [bearishLine bearish.length] else [])
    { total_found := df.length,
      avg_volume_ratio := round2 ((df.map (fun r => r.base.volume_ratio)).sum / df.length),
      avg_momentum_score := round2 ((df.map (fun r => r.momentum_score)).sum / df.length),
      top_categories := categories }

/-! ### Effect model for the caller-supplied DataFrame

Python DataFrames are mutable objects, so for the frame property we track
what each engine method does to the argument object itself, separately from
its return value. -/

/-- A row of the caller's table object, possibly carrying the two scoring
columns (`trend_consistency`, `momentum_score`) written into it in place. -/
structure TableRow where
  base : SymbolSnapshot
  scored : Option (ℚ × ℚ)
deriving DecidableEq

/-- A table none of whose rows carries the scoring columns: the state of the
caller's object before any call. -/
def unmodifiedTable (df : List SymbolSnapshot) : List TableRow :=
  df.map (fun r => ⟨r, none⟩)

/-- The caller's table object after `_apply_filters(df, ...)` returns: the
body only rebinds the local name (`df = df[mask]` builds new frames) and
returns `df.copy()`, so the argument object receives no write. -/
def apply_filters_callerTableAfter (df : List SymbolSnapshot) : List TableRow :=
  unmodifiedTable df

/-- The caller's table object after `_calculate_momentum_score(df)` returns:
on an empty table the method returns at once, otherwise the assignments
`df['trend_consistency'] = 1.0`, `df.loc[same_direction, ...] = 1.5` and
`df['momentum_score'] = ...` write the two derived columns into the caller's
object in place; the final `sort_values` builds a new frame and only rebinds
the local name, so the caller's rows and their order are unchanged. -/
def calculate_momentum_score_callerTableAfter
    (df : List SymbolSnapshot) : List TableRow :=
  if df.length = 0 then unmodifiedTable df
  else df.map (fun r => ⟨r, some (trendConsistency r, momentumScore r)⟩)

/-- The caller's table object after `get_screening_summary(df)` returns: the
body only reads the frame (boolean-mask selections and means), so the
argument object receives no write. -/
def get_screening_summary_callerTableAfter (df : List TableRow) : List TableRow :=
  df

/-! ### Sample rows used by witnesses and counterexamples -/

/-- Scenario A row: `volume_ratio 3.0`, `price_change_1d 5.0`,
`price_change_7d 10.0`. -/
def rowA : SymbolSnapshot :=
  { symbol := "BTC-USD", current_price := 100, price_change_1d := 5,
    price_change_7d := 10, volume_24h := 300, avg_volume_7d := 100,
    volume_ratio := 3 }

/-- A bearish row with below-threshold volume ratio. -/
def rowB : SymbolSnapshot :=
  { symbol := "ETH-USD", current_price := 50, price_change_1d := -3,
    price_change_7d := 4, volume_24h := 100, avg_volume_7d := 100,
    volume_ratio := 1 }

/-- A row whose daily move is zero. -/
def rowZ : SymbolSnapshot :=
  { symbol := "AAPL", current_price := 10, price_change_1d := 0,
    price_change_7d := 7, volume_24h := 250, avg_volume_7d := 100,
    volume_ratio := 5/2 }

/-! ### Helper lemmas -/

/-- Rounding ties-to-even is the identity on integers. -/
lemma roundHalfEven_intCast (n : ℤ) : roundHalfEven (n : ℚ) = n := by
  unfold roundHalfEven
  norm_num [Int.floor_intCast]

/-- Evaluation rule for `round2` when the scaled value is an integer. -/
lemma round2_eq_of_mul_hundred (x : ℚ) (n : ℤ) (h : x * 100 = n) :
    round2 x = n / 100 := by
  unfold round2
  rw [h, roundHalfEven_intCast]

/-- Every row of the scoring stage's output is a scored copy of a row of the
input table. -/
lemma mem_calculate_momentum_score {df : List SymbolSnapshot}
    {c : ScoredCandidate} (hc : c ∈ calculate_momentum_score df) :
    c = scoreRow c.base ∧ c.base ∈ df := by
  unfold calculate_momentum_score at hc
  split at hc
  · exact absurd hc (List.not_mem_nil c)
  · rw [List.mem_mergeSort, List.mem_map] at hc
    obtain ⟨r, hr, rfl⟩ := hc
    exact ⟨rfl, hr⟩

/-- A bullish category line never coincides with a bearish one. -/
lemma bullishLine_ne_bearishLine (n m : ℕ) : bullishLine n ≠ bearishLine m := by
  intro h
  have h2 := congrArg String.data h
  simp [bullishLine, bearishLine, String.data_append] at h2

/-- A filtered list is nonempty exactly when some element satisfies the
predicate. -/
lemma filter_ne_nil_iff {α : Type} (p : α → Bool) (l : List α) :
    l.filter p ≠ [] ↔ ∃ a ∈ l, p a := by
  rw [Ne, List.filter_eq_nil_iff]
  push_neg
  simp

/-! ### Claim theorems -/

/-- C1: the Filter Stage keeps a row of the input table exactly when
`volume_ratio >= min_volume_ratio` and
`min_price_change_1d <= price_change_1d <= max_price_change_1d`; every
excluded row fails at least one of the conditions. -/
theorem filter_mem_iff_criteria (df : List SymbolSnapshot)
    (mvr mn mx : ℚ) (r : SymbolSnapshot) (hr : r ∈ df) :
    r ∈ apply_filters df mvr mn mx ↔
      mvr ≤ r.volume_ratio ∧ mn ≤ r.price_change_1d ∧ r.price_change_1d ≤ mx := by
  simp only [apply_filters, List.mem_filter, hr, Bool.and_eq_true,
    decide_eq_true_eq, true_and]

/-- Witness for C1: the scenario row with volume ratio 3 inside criteria
(2, -50, 50) is kept iff it meets the three bounds, instantiated
concretely. -/
theorem filter_mem_iff_criteria_witness :
    (rowA ∈ apply_filters [rowA, rowB] 2 (-50) 50 ↔
      2 ≤ rowA.volume_ratio ∧ -50 ≤ rowA.price_change_1d ∧
        rowA.price_change_1d ≤ 50) :=
  filter_mem_iff_criteria [rowA, rowB] 2 (-50) 50 rowA (by simp)

/-- C5: the Scoring Stage maps the empty table to the empty table and the
Summary Aggregator maps it to the all-zero summary with no categories. -/
theorem empty_input_identity :
    calculate_momentum_score [] = [] ∧
    get_screening_summary [] =
      { total_found := 0, avg_volume_ratio := 0, avg_momentum_score := 0,
        top_categories := [] } :=
  ⟨rfl, rfl⟩

/-- C6: criteria with `min_price_change_1d > max_price_change_1d` yield an
empty filtered set (and no error: the function is total). -/
theorem malformed_criteria_yields_empty (df : List SymbolSnapshot)
    (mvr mn mx : ℚ) (h : mx < mn) : apply_filters df mvr mn mx = [] := by
  simp only [apply_filters, List.filter_eq_nil_iff, Bool.and_eq_true,
    decide_eq_true_eq, not_and]
  intro r _ h1 h2
  exact absurd (h1.trans h2) (not_le.mpr h)

/-- Witness for C6: bounds (1, 0) are inverted and the concrete table is
filtered to nothing. -/
theorem malformed_criteria_yields_empty_witness :
    apply_filters [rowA, rowB] 0 1 0 = [] :=
  malformed_criteria_yields_empty [rowA, rowB] 0 1 0 (by norm_num)

/-- C7: raising `min_volume_ratio` with the price bounds fixed only shrinks
the filtered set: every survivor of the higher threshold survives the lower
one, and the filtered length never grows. -/
theorem filter_monotone_in_min_volume_ratio (df : List SymbolSnapshot)
    (mvr mvr' mn mx : ℚ) (h : mvr ≤ mvr') :
    (∀ r ∈ apply_filters df mvr' mn mx, r ∈ apply_filters df mvr mn mx) ∧
    (apply_filters df mvr' mn mx).length ≤ (apply_filters df mvr mn mx).length := by
  have hsub : (apply_filters df mvr' mn mx).Sublist (apply_filters df mvr mn mx) := by
    unfold apply_filters
    rw [List.filter_filter, List.filter_filter]
    refine List.monotone_filter_right df ?_
    intro r hr
    simp only [Bool.and_eq_true, decide_eq_true_eq] at hr ⊢
    exact ⟨hr.1, le_trans h hr.2⟩
  exact ⟨fun r hr => hsub.subset hr, hsub.length_le⟩

/-- Witness for C7: on a concrete two-row table, survivors of threshold 2
survive threshold 1 and the sizes do not grow. -/
theorem filter_monotone_in_min_volume_ratio_witness :
    (∀ r ∈ apply_filters [rowA, rowB] 2 (-50) 50,
      r ∈ apply_filters [rowA, rowB] 1 (-50) 50) ∧
    (apply_filters [rowA, rowB] 2 (-50) 50).length ≤
      (apply_filters [rowA, rowB] 1 (-50) 50).length :=
  filter_monotone_in_min_volume_ratio [rowA, rowB] 1 2 (-50) 50 (by norm_num)

/-- C2: every row of the scoring stage carries
`trend_consistency = 1.5` exactly on a strictly positive product of the two
price changes (zero on either side gives the base 1.0), and
`momentum_score = round(volume_ratio * abs(price_change_1d) *
trend_consistency, 2)`; the scenario row (3.0, 5.0, 10.0) scores 22.5. -/
theorem scoring_row_formulas (df : List SymbolSnapshot) (c : ScoredCandidate)
    (hc : c ∈ calculate_momentum_score df) :
    c.trend_consistency =
      (if 0 < c.base.price_change_1d * c.base.price_change_7d then 3/2 else 1) ∧
    (c.base.price_change_1d = 0 ∨ c.base.price_change_7d = 0 →
      c.trend_consistency = 1) ∧
    c.momentum_score =
      round2 (c.base.volume_ratio * |c.base.price_change_1d| *
        c.trend_consistency) ∧
    (c.base.volume_ratio = 3 ∧ c.base.price_change_1d = 5 ∧
      c.base.price_change_7d = 10 → c.momentum_score = 45/2) := by
  obtain ⟨hcs, -⟩ := mem_calculate_momentum_score hc
  obtain ⟨r, hr⟩ : ∃ r, c = scoreRow r := ⟨c.base, hcs⟩
  subst hr
  refine ⟨rfl, ?_, rfl, ?_⟩
  · rintro (h | h) <;>
      simp only [scoreRow] at h ⊢ <;>
      simp [trendConsistency, h]
  · rintro ⟨h1, h2, h3⟩
    simp only [scoreRow] at h1 h2 h3 ⊢
    show momentumScore r = 45/2
    have htc : trendConsistency r = 3/2 := by
      simp only [trendConsistency, h2, h3]
      norm_num
    have hprod : r.volume_ratio * |r.price_change_1d| *
        trendConsistency r = 45/2 := by
      rw [h1, h2, htc]
      norm_num
    unfold momentumScore
    rw [round2_eq_of_mul_hundred _ 2250 (by rw [hprod]; norm_num)]
    norm_num

/-- Witness for C2: the scenario row screened alone gets momentum score
22.5 (and trend consistency handled by the zero clause on a zero row). -/
theorem scoring_row_formulas_witness :
    (scoreRow rowA).momentum_score = 45/2 :=
  (scoring_row_formulas [rowA] (scoreRow rowA)
      (by simp [calculate_momentum_score, List.mem_mergeSort])).2.2.2
    ⟨rfl, rfl, rfl⟩

/-- C3: the scoring stage's output is sorted with `momentum_score`
non-increasing from the first row to the last. -/
theorem score_output_sorted (df : List SymbolSnapshot) :
    (calculate_momentum_score df).Pairwise
      (fun a b => b.momentum_score ≤ a.momentum_score) := by
  unfold calculate_momentum_score
  split
  · exact List.Pairwise.nil
  · have htrans : ∀ a b c : ScoredCandidate, scoreDescLe a b = true →
        scoreDescLe b c = true → scoreDescLe a c = true := by
      intro a b c hab hbc
      simp only [scoreDescLe, decide_eq_true_eq] at *
      exact le_trans hbc hab
    have htotal : ∀ a b : ScoredCandidate,
        (scoreDescLe a b || scoreDescLe b a) = true := by
      intro a b
      simp only [scoreDescLe, Bool.or_eq_true, decide_eq_true_eq]
      exact le_total _ _
    have h := @List.sorted_mergeSort ScoredCandidate scoreDescLe htrans htotal
      (df.map scoreRow)
    refine h.imp ?_
    intro a b hab
    simpa [scoreDescLe] using hab

/-- C9: the Scoring Stage is a pure function of its input: equal input
tables give equal outputs, and a row's momentum score depends only on the
field values the stage reads. -/
theorem score_deterministic (df1 df2 : List SymbolSnapshot) (h : df1 = df2) :
    calculate_momentum_score df1 = calculate_momentum_score df2 ∧
    (∀ r s : SymbolSnapshot, r.volume_ratio = s.volume_ratio →
      r.price_change_1d = s.price_change_1d →
      r.price_change_7d = s.price_change_7d →
      (scoreRow r).momentum_score = (scoreRow s).momentum_score) := by
  refine ⟨by rw [h], ?_⟩
  intro r s h1 h2 h3
  simp only [scoreRow, momentumScore, trendConsistency, h1, h2, h3]

/-- Witness for C9: two calls on the same concrete one-row table agree, and
two value-identical rows get the same score. -/
theorem score_deterministic_witness :
    calculate_momentum_score [rowA] = calculate_momentum_score [rowA] ∧
    (scoreRow rowA).momentum_score = (scoreRow rowA).momentum_score :=
  ⟨(score_deterministic [rowA] [rowA] rfl).1,
   (score_deterministic [rowA] [rowA] rfl).2 rowA rowA rfl rfl rfl⟩

/-- C10: the scoring stage neither drops nor adds rows: the output has the
input's length, its underlying snapshots are a permutation of the input
rows (so every original field value is unchanged), and each output row
carries exactly the two derived fields of its snapshot. -/
theorem score_preserves_rows (df : List SymbolSnapshot) :
    (calculate_momentum_score df).length = df.length ∧
    ((calculate_momentum_score df).map (fun c => c.base)).Perm df ∧
    ∀ c ∈ calculate_momentum_score df,
      c.trend_consistency = trendConsistency c.base ∧
      c.momentum_score = momentumScore c.base := by
  have hmem : ∀ c ∈ calculate_momentum_score df,
      c.trend_consistency = trendConsistency c.base ∧
      c.momentum_score = momentumScore c.base := by
    intro c hc
    obtain ⟨hcs, -⟩ := mem_calculate_momentum_score hc
    obtain ⟨r, hr⟩ : ∃ r, c = scoreRow r := ⟨c.base, hcs⟩
    subst hr
    exact ⟨rfl, rfl⟩
  refine ⟨?_, ?_, hmem⟩ <;>
    unfold calculate_momentum_score <;>
    split
  · rename_i hlen
    rw [List.length_eq_zero] at hlen
    rw [hlen]
    rfl
  · have hperm := List.mergeSort_perm (df.map scoreRow) scoreDescLe
    rw [hperm.length_eq, List.length_map]
  · rename_i hlen
    rw [List.length_eq_zero] at hlen
    rw [hlen]
    rfl
  · have hperm := (List.mergeSort_perm (df.map scoreRow) scoreDescLe).map
      (fun c => c.base)
    refine hperm.trans ?_
    rw [List.map_map]
    have : ((fun c : ScoredCandidate => c.base) ∘ scoreRow) = id := rfl
    rw [this, List.map_id]

/-- Witness for C10: screening the concrete two-row table keeps both rows. -/
theorem score_preserves_rows_witness :
    (calculate_momentum_score [rowA, rowB]).length = 2 ∧
    ((calculate_momentum_score [rowA, rowB]).map (fun c => c.base)).Perm
      [rowA, rowB] :=
  ⟨(score_preserves_rows [rowA, rowB]).1,
   (score_preserves_rows [rowA, rowB]).2.1⟩

/-- C8 counterexample: on a concrete one-row table the caller-supplied
frame is changed by `_calculate_momentum_score` (it gains the two scoring
columns in place), so the three stages do not all leave the caller's table
unchanged. -/
theorem scoring_mutates_caller_table :
    calculate_momentum_score_callerTableAfter [rowA] ≠ unmodifiedTable [rowA] := by
  simp [calculate_momentum_score_callerTableAfter, unmodifiedTable]

/-- C8 amended: the Filter Stage and the Summary Aggregator leave the
caller-supplied table untouched; the Scoring Stage writes the two derived
columns into the caller's table in place but preserves every original field
value and the row order, and returns a new sorted result. -/
theorem engine_mutation_footprint (df : List SymbolSnapshot)
    (scored : List TableRow) :
    apply_filters_callerTableAfter df = unmodifiedTable df ∧
    get_screening_summary_callerTableAfter scored = scored ∧
    (calculate_momentum_score_callerTableAfter df).map (fun row => row.base) = df ∧
    ∀ row ∈ calculate_momentum_score_callerTableAfter df,
      row.scored = none ∨
        row.scored = some (trendConsistency row.base, momentumScore row.base) := by
  refine ⟨rfl, rfl, ?_, ?_⟩
  · unfold calculate_momentum_score_callerTableAfter
    split <;>
      simp [unmodifiedTable, List.map_map] <;>
      exact List.map_id df
  · intro row hrow
    unfold calculate_momentum_score_callerTableAfter at hrow
    split at hrow
    · rw [unmodifiedTable, List.mem_map] at hrow
      obtain ⟨r, -, rfl⟩ := hrow
      exact Or.inl rfl
    · rw [List.mem_map] at hrow
      obtain ⟨r, -, rfl⟩ := hrow
      exact Or.inr rfl

/-- Witness for C8's amended theorem: on the concrete one-row table the
filter leaves the frame untouched and the scoring stage's writes preserve
the underlying row. -/
theorem engine_mutation_footprint_witness :
    apply_filters_callerTableAfter [rowA] = unmodifiedTable [rowA] ∧
    (calculate_momentum_score_callerTableAfter [rowA]).map
      (fun row => row.base) = [rowA] :=
  ⟨(engine_mutation_footprint [rowA] []).1,
   (engine_mutation_footprint [rowA] []).2.2.1⟩

/-- Explicit form of the summary on a nonempty table. -/
lemma summary_nonempty_eq (df : List ScoredCandidate) (h : df.length ≠ 0) :
    get_screening_summary df =
      { total_found := df.length,
        avg_volume_ratio :=
          round2 ((df.map (fun r => r.base.volume_ratio)).sum / df.length),
        avg_momentum_score :=
          round2 ((df.map (fun r => r.momentum_score)).sum / df.length),
        top_categories :=
          (if (df.filter (fun r => decide (0 < r.base.price_change_1d))).length > 0
            then [bullishLine
              (df.filter (fun r => decide (0 < r.base.price_change_1d))).length]
            else []) ++
          (if (df.filter (fun r => decide (r.base.price_change_1d < 0))).length > 0
            then [bearishLine
              (df.filter (fun r => decide (r.base.price_change_1d < 0))).length]
            else []) } := by
  unfold get_screening_summary
  rw [if_neg h]

/-- C4: on a nonempty scored table the summary counts every row in
`total_found`, reports the rounded means of the volume-ratio and
momentum-score columns, and lists a bullish (resp. bearish) category line
exactly when some row has a strictly positive (resp. strictly negative)
daily change; rows with a zero daily change fall in neither bucket while
still being counted in `total_found`. -/
theorem summary_fields_correct (df : List ScoredCandidate) (h : df ≠ []) :
    (get_screening_summary df).total_found = df.length ∧
    (get_screening_summary df).avg_volume_ratio =
      round2 ((df.map (fun r => r.base.volume_ratio)).sum / df.length) ∧
    (get_screening_summary df).avg_momentum_score =
      round2 ((df.map (fun r => r.momentum_score)).sum / df.length) ∧
    ((∃ r ∈ df, 0 < r.base.price_change_1d) ↔
      bullishLine (df.filter (fun r => decide (0 < r.base.price_change_1d))).length ∈
        (get_screening_summary df).top_categories) ∧
    ((∃ r ∈ df, r.base.price_change_1d < 0) ↔
      bearishLine (df.filter (fun r => decide (r.base.price_change_1d < 0))).length ∈
        (get_screening_summary df).top_categories) ∧
    (∀ r ∈ df, r.base.price_change_1d = 0 →
      r ∉ df.filter (fun s => decide (0 < s.base.price_change_1d)) ∧
      r ∉ df.filter (fun s => decide (s.base.price_change_1d < 0))) := by
  have hlen : df.length ≠ 0 := fun h0 => h (List.length_eq_zero.mp h0)
  rw [summary_nonempty_eq df hlen]
  refine ⟨rfl, rfl, rfl, ?_, ?_, ?_⟩
  · constructor
    · intro hex
      have hne : df.filter (fun r => decide (0 < r.base.price_change_1d)) ≠ [] := by
        rw [filter_ne_nil_iff]
        obtain ⟨r, hr, hp⟩ := hex
        exact ⟨r, hr, by simpa using hp⟩
      rw [if_pos (List.length_pos.mpr hne)]
      exact List.mem_append_left _ (List.mem_singleton.mpr rfl)
    · intro hmem
      rcases List.mem_append.mp hmem with hm | hm
      · by_cases hbl :
          (df.filter (fun r => decide (0 < r.base.price_change_1d))).length > 0
        · have hne := List.length_pos.mp hbl
          rw [filter_ne_nil_iff] at hne
          obtain ⟨r, hr, hp⟩ := hne
          exact ⟨r, hr, by simpa using hp⟩
        · rw [if_neg hbl] at hm
          exact absurd hm (List.not_mem_nil _)
      · by_cases hrl :
          (df.filter (fun r => decide (r.base.price_change_1d < 0))).length > 0
        · rw [if_pos hrl, List.mem_singleton] at hm
          exact absurd hm (bullishLine_ne_bearishLine _ _)
        · rw [if_neg hrl] at hm
          exact absurd hm (List.not_mem_nil _)
  · constructor
    · intro hex
      have hne : df.filter (fun r => decide (r.base.price_change_1d < 0)) ≠ [] := by
        rw [filter_ne_nil_iff]
        obtain ⟨r, hr, hp⟩ := hex
        exact ⟨r, hr, by simpa using hp⟩
      rw [if_pos (List.length_pos.mpr hne)]
      exact List.mem_append_right _ (List.mem_singleton.mpr rfl)
    · intro hmem
      rcases List.mem_append.mp hmem with hm | hm
      · by_cases hbl :
          (df.filter (fun r => decide (0 < r.base.price_change_1d))).length > 0
        · rw [if_pos hbl, List.mem_singleton] at hm
          exact absurd hm.symm (bullishLine_ne_bearishLine _ _)
        · rw [if_neg hbl] at hm
          exact absurd hm (List.not_mem_nil _)
      · by_cases hrl :
          (df.filter (fun r => decide (r.base.price_change_1d < 0))).length > 0
        · have hne := List.length_pos.mp hrl
          rw [filter_ne_nil_iff] at hne
          obtain ⟨r, hr, hp⟩ := hne
          exact ⟨r, hr, by simpa using hp⟩
        · rw [if_neg hrl] at hm
          exact absurd hm (List.not_mem_nil _)
  · intro r hr h0
    constructor <;>
      rw [List.mem_filter] <;>
      rintro ⟨-, hp⟩ <;>
      simp [h0] at hp

/-- Witness for C4: the summary of the scored bullish/bearish pair counts
both rows and carries the bullish line for one asset. -/
theorem summary_fields_correct_witness :
    (get_screening_summary [scoreRow rowA, scoreRow rowB]).total_found = 2 ∧
    bullishLine 1 ∈
      (get_screening_summary [scoreRow rowA, scoreRow rowB]).top_categories := by
  have h := summary_fields_correct [scoreRow rowA, scoreRow rowB] (by simp)
  refine ⟨h.1, ?_⟩
  have hex : ∃ r ∈ [scoreRow rowA, scoreRow rowB], 0 < r.base.price_change_1d :=
    ⟨scoreRow rowA, by simp, by norm_num [scoreRow, rowA]⟩
  have hmem := (h.2.2.2.1).mp hex
  have hflt : ([scoreRow rowA, scoreRow rowB].filter
      (fun r => decide (0 < r.base.price_change_1d))).length = 1 := by
    norm_num [List.filter_cons, scoreRow, rowA, rowB]
  rw [hflt] at hmem
  exact hmem
